import Mathlib

/-
  Shallow embedding of the real-time collaboration backend:
  - socket page handlers (modules/pages socket file, src/unnamed/part_009 first half),
  - REST page routes (src/unnamed/part_009 second half),
  - the collaboration socket server: auth middleware, presence roster,
    editor/cursor relay (src/unnamed/part_000) and chat relay (src/unnamed/part_001),
  - REST project read with link access (src/unnamed/part_007).

  JavaScript falsiness for optional strings (undefined or the empty string)
  is modelled by strTruthy; a Prisma row set is a Lean list; findFirst is
  List.find? on that list; update-by-id is a map over the list; the unique
  index on (projectId, clientId) and the foreign key to Project are modelled
  inside the create path, whose failure lands in the catch block of the
  handler, exactly as a thrown Prisma error does.
-/

set_option linter.unusedVariables false

namespace Collab

/-- JS truthiness filter for an optional string: undefined and "" are falsy. -/
def strTruthy : Option String → Option String
  | none => none
  | some s => if s = "" then none else some s

/-- Boolean form of truthiness for an optional string. -/
def optTruthy (o : Option String) : Bool := (strTruthy o).isSome

/-- JS `a || b` on optional strings: first operand when truthy, else second as is. -/
def orTruthy (a b : Option String) : Option String :=
  match strTruthy a with
  | some s => some s
  | none => b

/-- JS `t || now` on an optional number: 0 and undefined are falsy. -/
def natOrNow (t : Option Nat) (now : Nat) : Nat :=
  match t with
  | some n => if n = 0 then now else n
  | none => now

/-- Decoded JWT payload attached to a socket by the auth middleware. -/
structure UserPayload where
  id : String
  email : String
  name : String
deriving DecidableEq, Repr

/-- Project row: the fields consulted by the handlers under verification. -/
structure Project where
  id : String
  ownerId : String
  linkAccess : String
  linkToken : Option String
deriving DecidableEq, Repr

/-- ProjectPermission row (unique on projectId, userId). -/
structure ProjectPermission where
  projectId : String
  userId : String
  permission : String
deriving DecidableEq, Repr

/-- Page row, including the soft-delete flag and the default flag. -/
structure Page where
  id : String
  clientId : String
  projectId : String
  name : String
  html : Option String
  css : Option String
  components : Option String
  isDefault : Bool
  isDeleted : Bool
  createdAt : Nat
deriving DecidableEq, Repr

/-- The durable store: the three tables the verified handlers touch. -/
structure DB where
  projects : List Project
  permissions : List ProjectPermission
  pages : List Page
deriving DecidableEq, Repr

/-- The pageData object carried inside a page event payload. -/
structure PageData where
  id : String
  name : String
  html : Option String
  css : Option String
  components : Option String
  isDefault : Option Bool
deriving DecidableEq, Repr

/-- Payload of the page lifecycle socket events (PageEventData in the source). -/
structure PageEventData where
  pageId : Option String
  pageName : Option String
  userId : Option String
  timestamp : Option Nat
  projectId : Option String
  pageData : Option PageData
deriving DecidableEq, Repr

/-- Payload of the page:request-sync event. -/
structure SyncData where
  projectId : String
  userId : Option String
deriving DecidableEq, Repr

/-- One entry of the page:full-sync response (clientId is sent as id). -/
structure SyncPage where
  id : String
  name : String
  html : Option String
  css : Option String
  components : Option String
  isDefault : Bool
deriving DecidableEq, Repr

/-- Broadcast target of an emitted socket message: socket.emit goes to the
sender only, socket.to(room).emit to the room minus the sender, and
io.to(room).emit to the whole room. -/
inductive Target where
  | sender
  | roomExceptSender (room : String)
  | room (room : String)
deriving DecidableEq, Repr

/-- Payload of an emitted socket message, one shape per emitting site. -/
inductive Payload where
  | enrichedFull (userId userName : String) (data : String) (timestamp : Nat)
  | enrichedChange (userId userName : String) (change : String) (timestamp : Nat)
  | enrichedCursor (userId userName : String) (position : String) (timestamp : Nat)
  | chat (userId userName : String) (message : Option String) (timestamp : Nat)
  | pageEvt (d : PageEventData)
  | err (message : String)
  | fullSync (pages : List SyncPage)
  | joinAck (projectId : String)
deriving DecidableEq, Repr

/-- An emitted socket message: where it goes, the event name, the payload. -/
structure Msg where
  target : Target
  event : String
  payload : Payload
deriving DecidableEq, Repr

/-- The in-memory clientPages registry: key "socketId:projectId" to the set of
page clientIds loaded by that client, kept as a duplicate-free list. -/
abbrev ClientPages := List (String × List String)

/-- Set.add on the value list of one key (insert if absent, append order). -/
def setInsert (l : List String) (x : String) : List String :=
  if l.contains x then l else l ++ [x]

/-- clientPages.set(key, set.add(x)) with get-or-default to the empty set. -/
def cpAdd (cp : ClientPages) (key x : String) : ClientPages :=
  let cur := ((cp.find? (fun kv => kv.1 == key)).map (fun kv => kv.2)).getD []
  let cur2 := setInsert cur x
  if cp.any (fun kv => kv.1 == key) then
    cp.map (fun kv => if kv.1 == key then (key, cur2) else kv)
  else cp ++ [(key, cur2)]

/-- pageSet.delete(x) when the key is present (page:remove bookkeeping). -/
def cpDelete (cp : ClientPages) (key x : String) : ClientPages :=
  cp.map (fun kv => if kv.1 == key then (key, kv.2.filter (fun y => y != x)) else kv)

/-- Extract of pageData fields with JS `|| null` semantics for the create call. -/
def pdField (pd : Option PageData) (f : PageData → Option String) : Option String :=
  match pd with
  | none => none
  | some d => strTruthy (f d)

/-- JS `pageData?.isDefault || false`. -/
def pdIsDefault (pd : Option PageData) : Bool :=
  match pd with
  | none => false
  | some d => d.isDefault.getD false

/-- The socket page:add handler. The connection context (authenticated project
id, socket id) is passed explicitly; the source reads only socket.id, never the
project the socket was authenticated for. The create call carries the unique
(projectId, clientId) index and the foreign key to Project: either violation
throws and is caught, emitting the generic error, with no row written. -/
def handlePageAdd (authPid sockId : String) (db : DB) (cp : ClientPages)
    (freshId : String) (now : Nat) (data : PageEventData) :
    DB × ClientPages × List Msg :=
  match strTruthy data.projectId, strTruthy data.pageId, strTruthy data.pageName with
  | some projectId, some pageId, some pageName =>
    match db.pages.find? (fun p => p.projectId == projectId && p.clientId == pageId && !p.isDeleted) with
    | none =>
      if db.pages.any (fun p => p.projectId == projectId && p.clientId == pageId) then
        (db, cp, [⟨Target.sender, "error", Payload.err "Error al agregar página"⟩])
      else if ¬ db.projects.any (fun pr => pr.id == projectId) then
        (db, cp, [⟨Target.sender, "error", Payload.err "Error al agregar página"⟩])
      else
        let newPage : Page :=
          ⟨freshId, pageId, projectId, pageName,
            pdField data.pageData (fun d => d.html),
            pdField data.pageData (fun d => d.css),
            pdField data.pageData (fun d => d.components),
            pdIsDefault data.pageData, false, now⟩
        ({db with pages := db.pages ++ [newPage]},
         cpAdd cp (sockId ++ ":" ++ projectId) pageId,
         [⟨Target.roomExceptSender ("project:" ++ projectId), "page:add", Payload.pageEvt data⟩])
    | some existingPage =>
      if existingPage.isDeleted then
        ({db with pages := db.pages.map (fun q =>
            if q.id == existingPage.id then
              {q with
                isDeleted := false
                name := pageName
                html := orTruthy (data.pageData.bind (fun d => d.html)) existingPage.html
                css := orTruthy (data.pageData.bind (fun d => d.css)) existingPage.css
                components := orTruthy (data.pageData.bind (fun d => d.components)) existingPage.components}
            else q)},
         cpAdd cp (sockId ++ ":" ++ projectId) pageId,
         [⟨Target.roomExceptSender ("project:" ++ projectId), "page:add", Payload.pageEvt data⟩])
      else
        (db, cpAdd cp (sockId ++ ":" ++ projectId) pageId,
         [⟨Target.roomExceptSender ("project:" ++ projectId), "page:add", Payload.pageEvt data⟩])
  | _, _, _ => (db, cp, [⟨Target.sender, "error", Payload.err "Datos incompletos para agregar página"⟩])

/-- The single-row update prisma.page.update(where id, data isDeleted true). -/
def markDeleted (rid : String) (q : Page) : Page :=
  if q.id == rid then {q with isDeleted := true} else q

/-- The single-row update prisma.page.update(where id, data isDefault true). -/
def markDefault (rid : String) (q : Page) : Page :=
  if q.id == rid then {q with isDefault := true} else q

/-- The socket page:remove handler: lookup without an isDeleted filter,
last-default-page refusal, soft delete, default reassignment by clientId. -/
def handlePageRemove (authPid sockId : String) (db : DB) (cp : ClientPages)
    (data : PageEventData) : DB × ClientPages × List Msg :=
  match strTruthy data.projectId, strTruthy data.pageId with
  | some projectId, some pageId =>
    match db.pages.find? (fun p => p.projectId == projectId && p.clientId == pageId) with
    | none =>
      (db, cpDelete cp (sockId ++ ":" ++ projectId) pageId,
       [⟨Target.roomExceptSender ("project:" ++ projectId), "page:remove", Payload.pageEvt data⟩])
    | some page =>
      if page.isDefault ∧ (db.pages.filter (fun p => p.projectId == projectId && !p.isDeleted)).length ≤ 1 then
        (db, cp, [⟨Target.sender, "error", Payload.err "No se puede eliminar la única página del proyecto"⟩])
      else
        let pages1 := db.pages.map (markDeleted page.id)
        let pages2 :=
          if page.isDefault then
            match pages1.find? (fun q => q.projectId == projectId && !q.isDeleted && q.clientId != pageId) with
            | some anyPage => pages1.map (markDefault anyPage.id)
            | none => pages1
          else pages1
        ({db with pages := pages2},
         cpDelete cp (sockId ++ ":" ++ projectId) pageId,
         [⟨Target.roomExceptSender ("project:" ++ projectId), "page:remove", Payload.pageEvt data⟩])
  | _, _ => (db, cp, [⟨Target.sender, "error", Payload.err "Datos incompletos para eliminar página"⟩])

/-- Partial update applied by prisma.page.update in the page:update handler:
name only when pageName is truthy, html and css and components only when the
field is not undefined, isDefault set true only when truthy in the payload. -/
def applyPageUpdate (p : Page) (pageName : Option String) (pd : Option PageData) : Page :=
  let p1 := match strTruthy pageName with
    | some n => {p with name := n}
    | none => p
  let p2 := match pd with
    | none => p1
    | some d =>
      let a := match d.html with | some h => {p1 with html := some h} | none => p1
      let b := match d.css with | some c => {a with css := some c} | none => a
      match d.components with | some c => {b with components := some c} | none => b
  if pdIsDefault pd then {p2 with isDefault := true} else p2

/-- The socket page:update handler: first the conditional bulk clearing of the
default flag on the siblings, then the single-row update. -/
def handlePageUpdate (authPid sockId : String) (db : DB) (cp : ClientPages)
    (data : PageEventData) : DB × ClientPages × List Msg :=
  match strTruthy data.projectId, strTruthy data.pageId with
  | some projectId, some pageId =>
    match db.pages.find? (fun p => p.projectId == projectId && p.clientId == pageId && !p.isDeleted) with
    | none =>
      (db, cp,
       [⟨Target.roomExceptSender ("project:" ++ projectId), "page:update", Payload.pageEvt data⟩])
    | some page =>
      let db1 :=
        if pdIsDefault data.pageData then
          {db with pages := db.pages.map (fun q =>
            if q.projectId == projectId && q.id != page.id && q.isDefault && !q.isDeleted then
              {q with isDefault := false}
            else q)}
        else db
      let db2 := {db1 with pages := db1.pages.map (fun q =>
        if q.id == page.id then applyPageUpdate q data.pageName data.pageData else q)}
      (db2, cp,
       [⟨Target.roomExceptSender ("project:" ++ projectId), "page:update", Payload.pageEvt data⟩])
  | _, _ => (db, cp, [⟨Target.sender, "error", Payload.err "Datos incompletos para actualizar página"⟩])

/-- The socket page:select handler: pure relay, nothing persisted. -/
def handlePageSelect (data : PageEventData) : List Msg :=
  match strTruthy data.projectId with
  | none => []
  | some projectId =>
    [⟨Target.roomExceptSender ("project:" ++ projectId), "page:select", Payload.pageEvt data⟩]

/-- The socket page:request-sync handler: all non-deleted pages of the payload
project, ordered by creation time ascending, sent back to the sender only. -/
def handleRequestSync (authPid sockId : String) (db : DB) (cp : ClientPages)
    (data : SyncData) : ClientPages × List Msg :=
  let pages := (db.pages.filter (fun p => p.projectId == data.projectId && !p.isDeleted)).mergeSort
    (fun a b => a.createdAt ≤ b.createdAt)
  let pagesData := pages.map (fun p => SyncPage.mk p.clientId p.name p.html p.css p.components p.isDefault)
  let cp1 := pages.foldl (fun c p => cpAdd c (sockId ++ ":" ++ data.projectId) p.clientId) cp
  (cp1, [⟨Target.sender, "page:full-sync", Payload.fullSync pagesData⟩])

/-- Handshake data of a collaboration connection attempt: the bearer token may
arrive in the auth payload or the query string; the target project id comes
from the query string. There is no link token parameter in the handshake. -/
structure Handshake where
  authToken : Option String
  queryToken : Option String
  queryProjectId : Option String
deriving DecidableEq, Repr

/-- JS `socket.handshake.auth?.token || socket.handshake.query?.token`,
combined with the falsiness check `if (!token)` that follows it. -/
def pickToken (hs : Handshake) : Option String :=
  match strTruthy hs.authToken with
  | some t => some t
  | none => strTruthy hs.queryToken

/-- Outcome of the auth middleware: rejection with a message, or an accepted
connection carrying the decoded user and the authenticated project id. -/
inductive AuthResult where
  | rejected (message : String)
  | accepted (user : UserPayload) (projectId : String)
deriving DecidableEq, Repr

def AuthResult.isAccepted : AuthResult → Bool
  | .accepted _ _ => true
  | .rejected _ => false

/-- The socket auth middleware. Token verification is an abstract function
standing for jwt.verify, returning none when verification throws. Access is
granted to the owner, to any permission-row holder, or whenever the project
linkAccess differs from "none"; no link token is ever compared. -/
def socketAuth (verify : String → Option UserPayload) (db : DB) (hs : Handshake) : AuthResult :=
  match pickToken hs with
  | none => .rejected "No se proporcionó token de autenticación"
  | some token =>
    match strTruthy hs.queryProjectId with
    | none => .rejected "No se proporcionó ID de proyecto"
    | some projectId =>
      match verify token with
      | none => .rejected "Error de autenticación"
      | some user =>
        match db.projects.find? (fun p => p.id == projectId) with
        | none => .rejected "Proyecto no encontrado"
        | some project =>
          let isOwner := project.ownerId == user.id
          let isCollaborator := (db.permissions.find? (fun pp => pp.projectId == projectId && pp.userId == user.id)).isSome
          let hasLinkAccess := project.linkAccess != "none"
          if !isOwner && !isCollaborator && !hasLinkAccess then
            .rejected "Sin permisos para acceder a este proyecto"
          else .accepted user projectId

/-- One entry of the presence roster: user id and display name. -/
structure Entry where
  id : String
  name : String
deriving DecidableEq, Repr

/-- The activeUsers map: project id to the per-project user roster. -/
abbrev Roster := List (String × List Entry)

/-- activeUsers.get(projectId), as an Option. -/
def rosterFind (r : Roster) (pid : String) : Option (List Entry) :=
  (r.find? (fun kv => kv.1 == pid)).map (fun kv => kv.2)

/-- activeUsers.set(projectId, users): overwrite or append. -/
def rosterSet (r : Roster) (pid : String) (users : List Entry) : Roster :=
  if r.any (fun kv => kv.1 == pid) then
    r.map (fun kv => if kv.1 == pid then (pid, users) else kv)
  else r ++ [(pid, users)]

/-- activeUsers.delete(projectId). -/
def rosterErase (r : Roster) (pid : String) : Roster :=
  r.filter (fun kv => kv.1 != pid)

/-- The user-join handler body: create the per-project map if missing, then
set the entry for the user id (overwrite on rejoin). -/
def rosterJoin (r : Roster) (pid uid uname : String) : Roster :=
  let cur := (rosterFind r pid).getD []
  let cur2 :=
    if cur.any (fun e => e.id == uid) then
      cur.map (fun e => if e.id == uid then ⟨uid, uname⟩ else e)
    else cur ++ [⟨uid, uname⟩]
  rosterSet r pid cur2

/-- The presence snapshot broadcast for a project: Array.from(values). -/
def snapshot (r : Roster) (pid : String) : List Entry :=
  (rosterFind r pid).getD []

/-- handleUserLeave from the collaboration server: delete the user from the
project roster and drop the whole roster entry when it becomes empty. -/
def handleUserLeave (r : Roster) (uid pid : String) : Roster :=
  match rosterFind r pid with
  | none => r
  | some users =>
    let users2 := users.filter (fun e => e.id != uid)
    if users2.isEmpty then rosterErase r pid
    else rosterSet r pid users2

/-- Connection events processed after an accepted handshake. -/
inductive ConnEvent where
  | userJoin
  | userLeave
  | disconnect
  | editorFull (d : String)
  | editorChange (d : String)
  | cursorMove (d : String)
  | chatMessage (m : Option String) (t : Option Nat)
deriving DecidableEq, Repr

/-- Effect of one connection event on the roster: only user-join inserts, only
user-leave and disconnect remove; the relay events leave the roster alone. -/
def applyConnEvent (u : UserPayload) (pid : String) (r : Roster) : ConnEvent → Roster
  | .userJoin => rosterJoin r pid u.id u.name
  | .userLeave => handleUserLeave r u.id pid
  | .disconnect => handleUserLeave r u.id pid
  | _ => r

/-- A whole connection attempt: the middleware runs first and, when it
rejects, no connection handler is ever registered, so the roster is untouched
whatever events the client would have sent. -/
def runConnection (verify : String → Option UserPayload) (db : DB) (roster : Roster)
    (hs : Handshake) (events : List ConnEvent) : Roster :=
  match socketAuth verify db hs with
  | .rejected _ => roster
  | .accepted u pid => events.foldl (fun r e => applyConnEvent u pid r e) roster

/-- The editor:full-update handler: wrap and relay to the room minus sender. -/
def handleEditorFullUpdate (user : UserPayload) (projectId : String)
    (fullUpdateData : String) (now : Nat) : List Msg :=
  [⟨Target.roomExceptSender projectId, "editor:full-update",
    Payload.enrichedFull user.id user.name fullUpdateData now⟩]

/-- The editor:change handler: wrap and relay to the room minus sender. -/
def handleEditorChange (user : UserPayload) (projectId : String)
    (changeData : String) (now : Nat) : List Msg :=
  [⟨Target.roomExceptSender projectId, "editor:change",
    Payload.enrichedChange user.id user.name changeData now⟩]

/-- The cursor:move handler: wrap and relay to the room minus sender. -/
def handleCursorMove (user : UserPayload) (projectId : String)
    (position : String) (now : Nat) : List Msg :=
  [⟨Target.roomExceptSender projectId, "cursor:move",
    Payload.enrichedCursor user.id user.name position now⟩]

/-- The chat:message handler: io.to(room) includes the sender. -/
def handleChatMessage (user : UserPayload) (projectId : String)
    (message : Option String) (timestamp : Option Nat) (now : Nat) : List Msg :=
  [⟨Target.room projectId, "chat:message",
    Payload.chat user.id user.name message (natOrNow timestamp now)⟩]

/-- Delivery of one emitted message given the membership of its room and the
sending socket: socket.emit reaches the sender, socket.to the other members,
io.to every member. -/
def deliver (members : List String) (sender : String) (m : Msg) : List String :=
  match m.target with
  | Target.sender => [sender]
  | Target.roomExceptSender _ => members.filter (fun s => s != sender)
  | Target.room _ => members

/-- Result of GET /projects/:id. -/
inductive GetProjectRes where
  | notFound
  | okProject (p : Project)
  | forbidden
deriving DecidableEq, Repr

/-- GET /projects/:id with the link access branch: owner or permission holder
first; otherwise the link path requires linkAccess not none, a truthy
presented token, a truthy stored token, and equality of the two. -/
def restGetProject (db : DB) (userId : String) (id : String) (linkToken : Option String) : GetProjectRes :=
  match db.projects.find? (fun p => p.id == id) with
  | none => .notFound
  | some project =>
    if project.ownerId == userId || db.permissions.any (fun pp => pp.projectId == id && pp.userId == userId) then
      .okProject project
    else if project.linkAccess != "none" && optTruthy linkToken && optTruthy project.linkToken
        && (linkToken == project.linkToken) then
      .okProject project
    else .forbidden

/-- Result of DELETE /api/pages/:id. -/
inductive DeleteRes where
  | notFound
  | lastPage
  | deleted
deriving DecidableEq, Repr

/-- DELETE /api/pages/:id: lookup by primary key, last-default-page refusal,
soft delete, default reassignment by id. -/
def restDeletePage (db : DB) (id : String) : DB × DeleteRes :=
  match db.pages.find? (fun p => p.id == id) with
  | none => (db, .notFound)
  | some page =>
    if page.isDefault ∧ (db.pages.filter (fun p => p.projectId == page.projectId && !p.isDeleted)).length ≤ 1 then
      (db, .lastPage)
    else
      let pages1 := db.pages.map (fun q => if q.id == page.id then {q with isDeleted := true} else q)
      let pages2 :=
        if page.isDefault then
          match pages1.find? (fun q => q.projectId == page.projectId && !q.isDeleted && q.id != id) with
          | some anyPage => pages1.map (fun q => if q.id == anyPage.id then {q with isDefault := true} else q)
          | none => pages1
        else pages1
      ({db with pages := pages2}, .deleted)

/-- Number of non-deleted pages of a project that carry the default flag. -/
def defaultCount (db : DB) (pid : String) : Nat :=
  db.pages.countP (fun p => p.projectId == pid && !p.isDeleted && p.isDefault)

/-- Number of non-deleted pages of a project. -/
def livePageCount (db : DB) (pid : String) : Nat :=
  db.pages.countP (fun p => p.projectId == pid && !p.isDeleted)

/-- The default-uniqueness invariant stated by the specification. -/
abbrev defaultInvariant (db : DB) (pid : String) : Prop :=
  defaultCount db pid = min 1 (livePageCount db pid)

/-- A project used by the concrete page scenarios. -/
def projX : Project := ⟨"X", "owner1", "none", none⟩

/-- Scenario of the specification: a single page p1, default, non-deleted. -/
def exC1page : Page := ⟨"r1", "p1", "X", "Home", none, none, none, true, false, 0⟩

def exC1db : DB := ⟨[projX], [], [exC1page]⟩

/-- page:add payload with clientId p2 and isDefault true. -/
def exC1event : PageEventData :=
  ⟨some "p2", some "Page 2", none, none, some "X", some ⟨"p2", "Page 2", none, none, none, some true⟩⟩

/-- C1: the claimed invariant (number of non-deleted default pages equals
min 1 of the number of non-deleted pages after every page operation) is
broken by the socket page:add handler itself: adding page p2 with isDefault
true to a project whose page p1 is already default leaves both pages default,
so the default count is 2 where the claim requires 1, and p1 keeps its flag
instead of losing it as the specification scenario expects. -/
theorem c1_socket_add_breaks_default_invariant :
    defaultCount (handlePageAdd "A" "s1" exC1db [] "r2" 5 exC1event).1 "X" = 2 ∧
    livePageCount (handlePageAdd "A" "s1" exC1db [] "r2" 5 exC1event).1 "X" = 2 ∧
    ¬ defaultInvariant (handlePageAdd "A" "s1" exC1db [] "r2" 5 exC1event).1 "X" ∧
    ((handlePageAdd "A" "s1" exC1db [] "r2" 5 exC1event).1.pages.countP
      (fun p => p.clientId == "p1" && !p.isDeleted && p.isDefault)) = 1 := by
  decide

/-- A soft-deleted page whose clientId will be reused by a page:add event. -/
def exC4page : Page := ⟨"r1", "p1", "X", "Old", some "OLDHTML", none, none, true, true, 0⟩

def exC4db : DB := ⟨[projX], [], [exC4page]⟩

/-- page:add payload reusing the clientId of the soft-deleted page. -/
def exC4event : PageEventData := ⟨some "p1", some "New", none, none, some "X", none⟩

/-- C4: when a soft-deleted page shares the clientId of a page:add event, the
handler does not restore it: the lookup filters isDeleted false so it misses
the row, the create then violates the unique (projectId, clientId) index, and
the catch block emits the generic error, leaving the store unchanged and the
page still soft-deleted; the restore branch of the source is unreachable. -/
theorem c4_soft_deleted_clientId_not_restored :
    handlePageAdd "A" "s1" exC4db [] "r2" 5 exC4event =
      (exC4db, [], [⟨Target.sender, "error", Payload.err "Error al agregar página"⟩]) ∧
    ((exC4db.pages.any (fun p => p.projectId == "X" && p.clientId == "p1" && p.isDeleted)) = true) := by
  decide

/-- A project whose sole non-deleted page does not carry the default flag. -/
def exC3page : Page := ⟨"r1", "p1", "X", "Home", none, none, none, false, false, 0⟩

def exC3db : DB := ⟨[projX], [], [exC3page]⟩

def exC3event : PageEventData := ⟨some "p1", none, none, none, some "X", none⟩

/-- C3 counterexample: the last-page protection only runs when the removed
page is flagged default, so the sole non-deleted page of this project, which
is not default, is soft-deleted without any error and the live page count of
the project drops to zero, contradicting the claimed refusal. -/
theorem c3_counterexample_sole_nondefault_page_removed :
    livePageCount exC3db "X" = 1 ∧
    livePageCount (handlePageRemove "A" "s1" exC3db [] exC3event).1 "X" = 0 ∧
    ((handlePageRemove "A" "s1" exC3db [] exC3event).2.2.all (fun m => m.event != "error")) = true := by
  decide

/-- A store whose only page matches neither the clientId of the events below. -/
def exC10page : Page := ⟨"r9", "q9", "X", "Other", none, none, none, true, false, 0⟩

def exC10db : DB := ⟨[projX], [], [exC10page]⟩

def exC10event : PageEventData := ⟨some "nope", none, none, none, some "X", none⟩

/-- C10: when no page row of the named project carries the clientId of a
page:remove or page:update event, the handler writes nothing to the store,
emits no error to the sender, and still re-broadcasts the event verbatim to
the other members of the project room. -/
theorem c10_missing_page_noop_still_broadcasts
    (authPid sockId : String) (db : DB) (cp : ClientPages) (d : PageEventData)
    (pid cid : String)
    (h1 : strTruthy d.projectId = some pid)
    (h2 : strTruthy d.pageId = some cid)
    (h3 : ∀ p ∈ db.pages, ¬ (p.projectId = pid ∧ p.clientId = cid)) :
    handlePageRemove authPid sockId db cp d =
      (db, cpDelete cp (sockId ++ ":" ++ pid) cid,
       [⟨Target.roomExceptSender ("project:" ++ pid), "page:remove", Payload.pageEvt d⟩]) ∧
    handlePageUpdate authPid sockId db cp d =
      (db, cp,
       [⟨Target.roomExceptSender ("project:" ++ pid), "page:update", Payload.pageEvt d⟩]) := by
  have hf1 : db.pages.find? (fun p => p.projectId == pid && p.clientId == cid) = none := by
    apply List.find?_eq_none.mpr
    intro p hp
    simp only [Bool.and_eq_true, beq_iff_eq, not_and]
    intro hq hc
    exact h3 p hp ⟨hq, hc⟩
  have hf2 : db.pages.find? (fun p => p.projectId == pid && p.clientId == cid && !p.isDeleted) = none := by
    apply List.find?_eq_none.mpr
    intro p hp
    simp only [Bool.and_eq_true, beq_iff_eq, not_and]
    exact fun hq _ => h3 p hp hq
  constructor
  · simp only [handlePageRemove, h1, h2, hf1]
  · simp only [handlePageUpdate, h1, h2, hf2]

/-- C10 witness at a concrete store and event. -/
theorem c10_witness :
    handlePageRemove "A" "s1" exC10db [] exC10event =
      (exC10db, cpDelete [] "s1:X" "nope",
       [⟨Target.roomExceptSender "project:X", "page:remove", Payload.pageEvt exC10event⟩]) ∧
    handlePageUpdate "A" "s1" exC10db [] exC10event =
      (exC10db, [],
       [⟨Target.roomExceptSender "project:X", "page:update", Payload.pageEvt exC10event⟩]) :=
  c10_missing_page_noop_still_broadcasts "A" "s1" exC10db [] exC10event "X" "nope"
    (by decide) (by decide) (by decide)

/-- A project whose sole non-deleted page carries the default flag. -/
def exC3dpage : Page := ⟨"r1", "p1", "X", "Home", none, none, none, true, false, 0⟩

def exC3ddb : DB := ⟨[projX], [], [exC3dpage]⟩

def exC3dev : PageEventData := ⟨some "p1", none, none, none, some "X", none⟩

/-- C3 amended: the removal of the sole non-deleted page of a project is
refused (socket error event, REST status 400) exactly when that page carries
the default flag; then the store is unchanged. The unamended claim fails on a
sole non-default page, which is deleted without refusal. -/
theorem c3_amended_last_default_page_refused
    (authPid sockId : String) (db : DB) (cp : ClientPages) (d : PageEventData)
    (pid cid rid : String) (page : Page)
    (h1 : strTruthy d.projectId = some pid)
    (h2 : strTruthy d.pageId = some cid)
    (h3 : db.pages.find? (fun p => p.projectId == pid && p.clientId == cid) = some page)
    (h4 : page.isDefault = true)
    (h5 : (db.pages.filter (fun p => p.projectId == pid && !p.isDeleted)).length ≤ 1)
    (h6 : db.pages.find? (fun p => p.id == rid) = some page) :
    handlePageRemove authPid sockId db cp d =
      (db, cp, [⟨Target.sender, "error", Payload.err "No se puede eliminar la única página del proyecto"⟩]) ∧
    restDeletePage db rid = (db, DeleteRes.lastPage) := by
  have hpp : page.projectId = pid := by
    have h := List.find?_some h3
    simp only [Bool.and_eq_true, beq_iff_eq] at h
    exact h.1
  constructor
  · simp only [handlePageRemove, h1, h2, h3]
    rw [if_pos ⟨h4, h5⟩]
  · simp only [restDeletePage, h6, hpp]
    rw [if_pos ⟨h4, h5⟩]

/-- C3 amended witness: a store with one default page. -/
theorem c3_amended_witness :
    handlePageRemove "A" "s1" exC3ddb [] exC3dev =
      (exC3ddb, [], [⟨Target.sender, "error", Payload.err "No se puede eliminar la única página del proyecto"⟩]) ∧
    restDeletePage exC3ddb "r1" = (exC3ddb, DeleteRes.lastPage) :=
  c3_amended_last_default_page_refused "A" "s1" exC3ddb [] exC3dev "X" "p1" "r1" exC3dpage
    (by decide) (by decide) (by decide) (by decide) (by decide) (by decide)

/-- The user decoded from the only verifiable token of the examples. -/
def exU : UserPayload := ⟨"u", "u(at)example", "U"⟩

/-- Abstract token service of the examples: one valid token. -/
def exVerify : String → Option UserPayload := fun t => if t == "tok-u" then some exU else none

/-- A project with link access read and a stored link token. -/
def exC5proj : Project := ⟨"P", "o", "read", some "secret"⟩

def exC5db : DB := ⟨[exC5proj], [], []⟩

/-- A handshake carrying only a bearer token, no link token anywhere. -/
def exC5hs : Handshake := ⟨some "tok-u", none, some "P"⟩

/-- C5 counterexample: the collaboration handshake is accepted for a user who
is neither owner nor permission holder although nothing the user presented
equals the stored link token: the socket middleware only tests that
linkAccess differs from none and never consults the link token, so the
claimed exact condition (token equality) is false for the handshake. -/
theorem c5_counterexample_handshake_without_token :
    (socketAuth exVerify exC5db exC5hs).isAccepted = true ∧
    exC5proj.linkAccess ≠ "none" ∧
    pickToken exC5hs ≠ exC5proj.linkToken ∧
    exC5hs.queryToken = none ∧
    exC5proj.ownerId ≠ exU.id ∧
    exC5db.permissions = [] := by
  decide

/-- C2: the effect of the page:add, page:remove, page:update and
page:request-sync handlers depends only on the event payload and the socket
id: the project id the connection was authenticated for, passed here as the
first argument exactly as the middleware attaches it to the socket, is never
consulted, so a connection authenticated for one project and emitting a
payload naming another behaves exactly as a member of the named project. -/
theorem c2_page_handlers_ignore_authenticated_project :
    ∀ (authPid1 authPid2 sockId freshId : String) (now : Nat) (db : DB) (cp : ClientPages)
      (d : PageEventData) (s : SyncData),
      handlePageAdd authPid1 sockId db cp freshId now d = handlePageAdd authPid2 sockId db cp freshId now d ∧
      handlePageRemove authPid1 sockId db cp d = handlePageRemove authPid2 sockId db cp d ∧
      handlePageUpdate authPid1 sockId db cp d = handlePageUpdate authPid2 sockId db cp d ∧
      handleRequestSync authPid1 sockId db cp s = handleRequestSync authPid2 sockId db cp s := by
  intro authPid1 authPid2 sockId freshId now db cp d s
  exact ⟨rfl, rfl, rfl, rfl⟩

/-- Setting a present key and then looking it up yields the stored value. -/
theorem find?_set_aux (l : List (String × List Entry)) (pid : String) (v : List Entry)
    (h : l.any (fun kv => kv.1 == pid) = true) :
    (l.map (fun kv => if kv.1 == pid then (pid, v) else kv)).find? (fun kv => kv.1 == pid) = some (pid, v) := by
  induction l with
  | nil => simp at h
  | cons a t ih =>
    by_cases ha : a.1 = pid
    · simp only [List.map_cons, if_pos (by simp [ha] : (a.1 == pid) = true)]
      rw [List.find?_cons_of_pos _ (by simp)]
    · simp only [List.any_cons, Bool.or_eq_true, beq_iff_eq] at h
      rcases h with h | h
      · exact absurd h ha
      · simp only [List.map_cons, if_neg (by simp [ha] : ¬ (a.1 == pid) = true)]
        rw [List.find?_cons_of_neg _ (by simp [ha])]
        exact ih h

/-- Lookup after rosterSet returns the stored roster. -/
theorem rosterFind_set (r : Roster) (pid : String) (v : List Entry) :
    rosterFind (rosterSet r pid v) pid = some v := by
  unfold rosterSet
  by_cases h : r.any (fun kv => kv.1 == pid) = true
  · rw [if_pos h]
    unfold rosterFind
    rw [find?_set_aux r pid v h]
    rfl
  · rw [if_neg h]
    have hnone : r.find? (fun kv => kv.1 == pid) = none := by
      apply List.find?_eq_none.mpr
      intro kv hkv hp
      exact h (List.any_eq_true.mpr ⟨kv, hkv, hp⟩)
    simp [rosterFind, List.find?_append, hnone]

/-- Lookup after rosterErase returns nothing. -/
theorem rosterFind_erase (r : Roster) (pid : String) :
    rosterFind (rosterErase r pid) pid = none := by
  have h : (r.filter (fun kv => kv.1 != pid)).find? (fun kv => kv.1 == pid) = none := by
    apply List.find?_eq_none.mpr
    intro kv hkv
    have hne := (List.mem_filter.mp hkv).2
    simp only [bne_iff_ne, ne_eq] at hne
    simp [hne]
  simp [rosterFind, rosterErase, h]

/-- C9: after a disconnect is processed by handleUserLeave, the leaving user
no longer appears in the presence snapshot of the project, and when that user
was the last entry of the project roster, the whole roster entry for the
project is removed from the activeUsers map. -/
theorem c9_disconnect_cleanup (roster : Roster) (uid uname pid : String) :
    ((snapshot (handleUserLeave roster uid pid) pid).all (fun e => e.id != uid)) = true ∧
    (rosterFind roster pid = some [⟨uid, uname⟩] →
      rosterFind (handleUserLeave roster uid pid) pid = none) := by
  constructor
  · cases hf : rosterFind roster pid with
    | none => simp [handleUserLeave, hf, snapshot]
    | some users =>
      simp only [handleUserLeave, hf]
      by_cases he : (users.filter (fun e => e.id != uid)).isEmpty = true
      · rw [if_pos he]
        simp [snapshot, rosterFind_erase]
      · rw [if_neg he]
        simp only [snapshot, rosterFind_set, Option.getD_some]
        apply List.all_eq_true.mpr
        intro e heM
        exact (List.mem_filter.mp heM).2
  · intro h
    simp only [handleUserLeave, h]
    have hemp : (([⟨uid, uname⟩] : List Entry).filter (fun e => e.id != uid)).isEmpty = true := by
      simp
    rw [if_pos hemp]
    exact rosterFind_erase roster pid

/-- A roster whose only project has the single user u. -/
def exRoster : Roster := [("X", [⟨"u", "U"⟩])]

/-- C9 witness: the last user leaves and the project entry disappears. -/
theorem c9_witness :
    rosterFind (handleUserLeave exRoster "u" "X") "X" = none ∧
    ((snapshot (handleUserLeave exRoster "u" "X") "X").all (fun e => e.id != "u")) = true :=
  ⟨(c9_disconnect_cleanup exRoster "u" "U" "X").2 rfl,
   (c9_disconnect_cleanup exRoster "u" "U" "X").1⟩

/-- C5 amended: for a user who is neither owner nor permission holder, the
REST project read grants access exactly when linkAccess is not none and a
truthy presented token equals the truthy stored link token, whereas the
collaboration handshake grants access exactly when linkAccess is not none,
without consulting any link token. -/
theorem c5_amended_rest_checks_token_handshake_does_not
    (verify : String → Option UserPayload) (db : DB) (hs : Handshake)
    (t pid : String) (u : UserPayload) (project : Project)
    (userId reqId : String) (tok : Option String) (project2 : Project)
    (h1 : pickToken hs = some t)
    (h2 : strTruthy hs.queryProjectId = some pid)
    (h3 : verify t = some u)
    (h4 : db.projects.find? (fun p => p.id == pid) = some project)
    (h5 : ¬ project.ownerId = u.id)
    (h6 : db.permissions.find? (fun pp => pp.projectId == pid && pp.userId == u.id) = none)
    (h7 : db.projects.find? (fun p => p.id == reqId) = some project2)
    (h8 : ¬ project2.ownerId = userId)
    (h9 : db.permissions.any (fun pp => pp.projectId == reqId && pp.userId == userId) = false) :
    ((socketAuth verify db hs).isAccepted = true ↔ project.linkAccess ≠ "none") ∧
    (restGetProject db userId reqId tok = GetProjectRes.okProject project2 ↔
      (project2.linkAccess ≠ "none" ∧ optTruthy tok = true ∧ optTruthy project2.linkToken = true ∧
        tok = project2.linkToken)) := by
  constructor
  · by_cases hl : project.linkAccess = "none"
    · simp [socketAuth, h1, h2, h3, h4, h5, h6, hl, AuthResult.isAccepted]
    · simp [socketAuth, h1, h2, h3, h4, h5, h6, hl, AuthResult.isAccepted]
  · simp only [restGetProject, h7]
    rw [if_neg (by simp [h8, h9])]
    by_cases hc : (project2.linkAccess != "none" && optTruthy tok && optTruthy project2.linkToken
        && (tok == project2.linkToken)) = true
    · rw [if_pos hc]
      simp only [Bool.and_eq_true, bne_iff_ne, ne_eq, beq_iff_eq] at hc
      simp only [true_iff]
      exact ⟨hc.1.1.1, hc.1.1.2, hc.1.2, hc.2⟩
    · rw [if_neg hc]
      simp only [Bool.and_eq_true, bne_iff_ne, ne_eq, beq_iff_eq, not_and] at hc
      constructor
      · intro h
        exact absurd h (by simp)
      · intro ⟨ha, hb, hcc, hd⟩
        exact absurd hd (hc ⟨⟨ha, hb⟩, hcc⟩)

/-- C5 amended witness: the link project of the counterexample, read once via
REST with the matching token and once via the handshake. -/
theorem c5_amended_witness :
    ((socketAuth exVerify exC5db exC5hs).isAccepted = true ↔ exC5proj.linkAccess ≠ "none") ∧
    (restGetProject exC5db "u" "P" (some "secret") = GetProjectRes.okProject exC5proj ↔
      (exC5proj.linkAccess ≠ "none" ∧ optTruthy (some "secret") = true ∧
        optTruthy exC5proj.linkToken = true ∧ (some "secret") = exC5proj.linkToken)) :=
  c5_amended_rest_checks_token_handshake_does_not exVerify exC5db exC5hs
    "tok-u" "P" exU exC5proj "u" "P" (some "secret") exC5proj
    (by decide) (by decide) (by decide) (by decide) (by decide) (by decide)
    (by decide) (by decide) (by decide)

/-- When the middleware rejects, no connection handler runs and the roster is
returned untouched. -/
theorem runConnection_of_not_accepted
    (verify : String → Option UserPayload) (db : DB) (roster : Roster)
    (hs : Handshake) (events : List ConnEvent)
    (h : (socketAuth verify db hs).isAccepted = false) :
    runConnection verify db roster hs events = roster := by
  rcases hres : socketAuth verify db hs with m | ⟨u2, p2⟩
  · simp [runConnection, hres]
  · rw [hres] at h
    simp [AuthResult.isAccepted] at h

/-- C8: a connection attempt with a missing token, a token that fails
verification, an unknown project id, or a user with no access of any kind is
rejected by the middleware, and no entry is ever added to the activeUsers
roster for that attempt, whatever events the client would have emitted. -/
theorem c8_rejected_handshake_never_in_roster
    (verify : String → Option UserPayload) (db : DB) (hs : Handshake)
    (roster : Roster) (events : List ConnEvent)
    (h : pickToken hs = none
      ∨ (∃ t, pickToken hs = some t ∧ verify t = none)
      ∨ (∃ pid, strTruthy hs.queryProjectId = some pid ∧
          db.projects.find? (fun p => p.id == pid) = none)
      ∨ (∃ t u pid project, pickToken hs = some t ∧ verify t = some u
          ∧ strTruthy hs.queryProjectId = some pid
          ∧ db.projects.find? (fun p => p.id == pid) = some project
          ∧ ¬ project.ownerId = u.id
          ∧ db.permissions.find? (fun pp => pp.projectId == pid && pp.userId == u.id) = none
          ∧ project.linkAccess = "none")) :
    (socketAuth verify db hs).isAccepted = false ∧
    runConnection verify db roster hs events = roster := by
  have hrej : (socketAuth verify db hs).isAccepted = false := by
    rcases h with h | ⟨t, ht, hv⟩ | ⟨pid, hp, hf⟩ | ⟨t, u, pid, project, ht, hv, hp, hf, ho, hperm, hl⟩
    · simp [socketAuth, h, AuthResult.isAccepted]
    · cases hq : strTruthy hs.queryProjectId with
      | none => simp [socketAuth, ht, hq, AuthResult.isAccepted]
      | some pid => simp [socketAuth, ht, hq, hv, AuthResult.isAccepted]
    · cases hpt : pickToken hs with
      | none => simp [socketAuth, hpt, AuthResult.isAccepted]
      | some tk =>
        cases hv2 : verify tk with
        | none => simp [socketAuth, hpt, hp, hv2, AuthResult.isAccepted]
        | some u2 => simp [socketAuth, hpt, hp, hv2, hf, AuthResult.isAccepted]
    · simp [socketAuth, ht, hv, hp, hf, hperm, hl, ho, AuthResult.isAccepted]
  exact ⟨hrej, runConnection_of_not_accepted verify db roster hs events hrej⟩

/-- A handshake that carries no token at all. -/
def exC8hs : Handshake := ⟨none, none, some "P"⟩

/-- C8 witness: the tokenless attempt leaves the empty roster empty even if a
user-join event were queued. -/
theorem c8_witness :
    (socketAuth exVerify exC5db exC8hs).isAccepted = false ∧
    runConnection exVerify exC5db [] exC8hs [ConnEvent.userJoin] = [] :=
  c8_rejected_handshake_never_in_roster exVerify exC5db exC8hs [] [ConnEvent.userJoin]
    (Or.inl rfl)

/-- Every message emitted by the page:add handler either targets the sender
alone (an error) or is the verbatim re-broadcast to the payload project room
minus the sender. -/
theorem pageAdd_msg_shape (authPid sockId : String) (db : DB) (cp : ClientPages)
    (freshId : String) (now : Nat) (d : PageEventData) :
    ∀ m ∈ (handlePageAdd authPid sockId db cp freshId now d).2.2,
      m.target = Target.sender ∨ ∃ pid, strTruthy d.projectId = some pid ∧
        m = ⟨Target.roomExceptSender ("project:" ++ pid), "page:add", Payload.pageEvt d⟩ := by
  intro m hm
  unfold handlePageAdd at hm
  cases h1 : strTruthy d.projectId with
  | none =>
    simp only [h1, List.mem_singleton] at hm
    subst hm
    exact Or.inl rfl
  | some pid =>
    cases h2 : strTruthy d.pageId with
    | none =>
      simp only [h1, h2, List.mem_singleton] at hm
      subst hm
      exact Or.inl rfl
    | some cid =>
      cases h3 : strTruthy d.pageName with
      | none =>
        simp only [h1, h2, h3, List.mem_singleton] at hm
        subst hm
        exact Or.inl rfl
      | some nm =>
        cases h4 : db.pages.find? (fun p => p.projectId == pid && p.clientId == cid && !p.isDeleted) with
        | none =>
          by_cases hc1 : (db.pages.any (fun p => p.projectId == pid && p.clientId == cid)) = true
          · simp only [h1, h2, h3, h4, hc1, if_true, List.mem_singleton] at hm
            subst hm
            exact Or.inl rfl
          · by_cases hc2 : (db.projects.any (fun pr => pr.id == pid)) = true
            · simp only [h1, h2, h3, h4, hc1, hc2, Bool.false_eq_true, not_true,
                not_false_eq_true, if_true, if_false, List.mem_singleton] at hm
              subst hm
              exact Or.inr ⟨pid, rfl, rfl⟩
            · simp only [h1, h2, h3, h4, hc1, hc2, Bool.false_eq_true, not_true,
                not_false_eq_true, if_true, if_false, List.mem_singleton] at hm
              subst hm
              exact Or.inl rfl
        | some ep =>
          by_cases hc3 : ep.isDeleted = true
          · simp only [h1, h2, h3, h4, hc3, Bool.false_eq_true, not_true,
                not_false_eq_true, if_true, if_false, List.mem_singleton] at hm
            subst hm
            exact Or.inr ⟨pid, rfl, rfl⟩
          · simp only [h1, h2, h3, h4, hc3, Bool.false_eq_true, not_true,
                not_false_eq_true, if_true, if_false, List.mem_singleton] at hm
            subst hm
            exact Or.inr ⟨pid, rfl, rfl⟩

/-- Every message emitted by the page:remove handler either targets the
sender alone or is the verbatim re-broadcast to the payload project room. -/
theorem pageRemove_msg_shape (authPid sockId : String) (db : DB) (cp : ClientPages)
    (d : PageEventData) :
    ∀ m ∈ (handlePageRemove authPid sockId db cp d).2.2,
      m.target = Target.sender ∨ ∃ pid, strTruthy d.projectId = some pid ∧
        m = ⟨Target.roomExceptSender ("project:" ++ pid), "page:remove", Payload.pageEvt d⟩ := by
  intro m hm
  unfold handlePageRemove at hm
  cases h1 : strTruthy d.projectId with
  | none =>
    simp only [h1, List.mem_singleton] at hm
    subst hm
    exact Or.inl rfl
  | some pid =>
    cases h2 : strTruthy d.pageId with
    | none =>
      simp only [h1, h2, List.mem_singleton] at hm
      subst hm
      exact Or.inl rfl
    | some cid =>
      cases h4 : db.pages.find? (fun p => p.projectId == pid && p.clientId == cid) with
      | none =>
        simp only [h1, h2, h4, List.mem_singleton] at hm
        subst hm
        exact Or.inr ⟨pid, rfl, rfl⟩
      | some page =>
        by_cases hc : (page.isDefault ∧
            (db.pages.filter (fun p => p.projectId == pid && !p.isDeleted)).length ≤ 1)
        · simp only [h1, h2, h4] at hm
          rw [if_pos hc] at hm
          simp only [List.mem_singleton] at hm
          subst hm
          exact Or.inl rfl
        · simp only [h1, h2, h4] at hm
          rw [if_neg hc] at hm
          simp only [List.mem_singleton] at hm
          subst hm
          exact Or.inr ⟨pid, rfl, rfl⟩

/-- Every message emitted by the page:update handler either targets the
sender alone or is the verbatim re-broadcast to the payload project room. -/
theorem pageUpdate_msg_shape (authPid sockId : String) (db : DB) (cp : ClientPages)
    (d : PageEventData) :
    ∀ m ∈ (handlePageUpdate authPid sockId db cp d).2.2,
      m.target = Target.sender ∨ ∃ pid, strTruthy d.projectId = some pid ∧
        m = ⟨Target.roomExceptSender ("project:" ++ pid), "page:update", Payload.pageEvt d⟩ := by
  intro m hm
  unfold handlePageUpdate at hm
  cases h1 : strTruthy d.projectId with
  | none =>
    simp only [h1, List.mem_singleton] at hm
    subst hm
    exact Or.inl rfl
  | some pid =>
    cases h2 : strTruthy d.pageId with
    | none =>
      simp only [h1, h2, List.mem_singleton] at hm
      subst hm
      exact Or.inl rfl
    | some cid =>
      cases h4 : db.pages.find? (fun p => p.projectId == pid && p.clientId == cid && !p.isDeleted) with
      | none =>
        simp only [h1, h2, h4, List.mem_singleton] at hm
        subst hm
        exact Or.inr ⟨pid, rfl, rfl⟩
      | some page =>
        simp only [h1, h2, h4, List.mem_singleton] at hm
        subst hm
        exact Or.inr ⟨pid, rfl, rfl⟩

/-- A message whose target is room-except-sender reaches every other member. -/
theorem deliver_roomExcept_mem (members : List String) (A B : String) (hB : B ∈ members)
    (hAB : ¬ A = B) (m : Msg) (r : String) (hm : m.target = Target.roomExceptSender r) :
    B ∈ deliver members A m := by
  simp only [deliver, hm]
  refine List.mem_filter.mpr ⟨hB, ?_⟩
  simp only [bne_iff_ne, ne_eq]
  exact fun h => hAB h.symm

/-- A message whose target is room-except-sender never reaches the sender. -/
theorem deliver_roomExcept_not_self (members : List String) (A : String) (m : Msg)
    (r : String) (hm : m.target = Target.roomExceptSender r) :
    ¬ A ∈ deliver members A m := by
  simp only [deliver, hm]
  intro hA
  have h := (List.mem_filter.mp hA).2
  simp at h

/-- A message whose target is the whole room reaches every member. -/
theorem deliver_room_mem (members : List String) (A B : String) (hB : B ∈ members)
    (m : Msg) (r : String) (hm : m.target = Target.room r) :
    B ∈ deliver members A m := by
  simp only [deliver, hm]
  exact hB

/-- C6: for two distinct connections A and B of the same room, the
editor:full-update, editor:change, cursor:move and page:select relays and
the room broadcasts of page:add, page:remove and page:update reach B and are
never re-delivered to A, while chat:message reaches both A and B. -/
theorem c6_broadcast_scope (members : List String) (A B : String)
    (hA : A ∈ members) (hB : B ∈ members) (hAB : ¬ A = B) :
    (∀ u pid d now, ∀ m ∈ handleEditorFullUpdate u pid d now,
        B ∈ deliver members A m ∧ ¬ A ∈ deliver members A m) ∧
    (∀ u pid d now, ∀ m ∈ handleEditorChange u pid d now,
        B ∈ deliver members A m ∧ ¬ A ∈ deliver members A m) ∧
    (∀ u pid d now, ∀ m ∈ handleCursorMove u pid d now,
        B ∈ deliver members A m ∧ ¬ A ∈ deliver members A m) ∧
    (∀ d, ∀ m ∈ handlePageSelect d,
        B ∈ deliver members A m ∧ ¬ A ∈ deliver members A m) ∧
    (∀ authPid sockId db cp freshId now d,
      ∀ m ∈ (handlePageAdd authPid sockId db cp freshId now d).2.2,
        m.target = Target.sender ∨ (∃ pid, strTruthy d.projectId = some pid ∧
          m = ⟨Target.roomExceptSender ("project:" ++ pid), "page:add", Payload.pageEvt d⟩ ∧
          B ∈ deliver members A m ∧ ¬ A ∈ deliver members A m)) ∧
    (∀ authPid sockId db cp d,
      ∀ m ∈ (handlePageRemove authPid sockId db cp d).2.2,
        m.target = Target.sender ∨ (∃ pid, strTruthy d.projectId = some pid ∧
          m = ⟨Target.roomExceptSender ("project:" ++ pid), "page:remove", Payload.pageEvt d⟩ ∧
          B ∈ deliver members A m ∧ ¬ A ∈ deliver members A m)) ∧
    (∀ authPid sockId db cp d,
      ∀ m ∈ (handlePageUpdate authPid sockId db cp d).2.2,
        m.target = Target.sender ∨ (∃ pid, strTruthy d.projectId = some pid ∧
          m = ⟨Target.roomExceptSender ("project:" ++ pid), "page:update", Payload.pageEvt d⟩ ∧
          B ∈ deliver members A m ∧ ¬ A ∈ deliver members A m)) ∧
    (∀ u pid msg ts now, ∀ m ∈ handleChatMessage u pid msg ts now,
        A ∈ deliver members A m ∧ B ∈ deliver members A m) := by
  refine ⟨?_, ?_, ?_, ?_, ?_, ?_, ?_, ?_⟩
  · intro u pid d now m hm
    simp only [handleEditorFullUpdate, List.mem_singleton] at hm
    subst hm
    exact ⟨deliver_roomExcept_mem members A B hB hAB _ pid rfl,
           deliver_roomExcept_not_self members A _ pid rfl⟩
  · intro u pid d now m hm
    simp only [handleEditorChange, List.mem_singleton] at hm
    subst hm
    exact ⟨deliver_roomExcept_mem members A B hB hAB _ pid rfl,
           deliver_roomExcept_not_self members A _ pid rfl⟩
  · intro u pid d now m hm
    simp only [handleCursorMove, List.mem_singleton] at hm
    subst hm
    exact ⟨deliver_roomExcept_mem members A B hB hAB _ pid rfl,
           deliver_roomExcept_not_self members A _ pid rfl⟩
  · intro d m hm
    unfold handlePageSelect at hm
    cases h1 : strTruthy d.projectId with
    | none =>
      simp only [h1, List.not_mem_nil] at hm
    | some pid =>
      simp only [h1, List.mem_singleton] at hm
      subst hm
      exact ⟨deliver_roomExcept_mem members A B hB hAB _ ("project:" ++ pid) rfl,
             deliver_roomExcept_not_self members A _ ("project:" ++ pid) rfl⟩
  · intro authPid sockId db cp freshId now d m hm
    rcases pageAdd_msg_shape authPid sockId db cp freshId now d m hm with h | ⟨pid, hpid, hmeq⟩
    · exact Or.inl h
    · subst hmeq
      exact Or.inr ⟨pid, hpid, rfl,
        deliver_roomExcept_mem members A B hB hAB _ ("project:" ++ pid) rfl,
        deliver_roomExcept_not_self members A _ ("project:" ++ pid) rfl⟩
  · intro authPid sockId db cp d m hm
    rcases pageRemove_msg_shape authPid sockId db cp d m hm with h | ⟨pid, hpid, hmeq⟩
    · exact Or.inl h
    · subst hmeq
      exact Or.inr ⟨pid, hpid, rfl,
        deliver_roomExcept_mem members A B hB hAB _ ("project:" ++ pid) rfl,
        deliver_roomExcept_not_self members A _ ("project:" ++ pid) rfl⟩
  · intro authPid sockId db cp d m hm
    rcases pageUpdate_msg_shape authPid sockId db cp d m hm with h | ⟨pid, hpid, hmeq⟩
    · exact Or.inl h
    · subst hmeq
      exact Or.inr ⟨pid, hpid, rfl,
        deliver_roomExcept_mem members A B hB hAB _ ("project:" ++ pid) rfl,
        deliver_roomExcept_not_self members A _ ("project:" ++ pid) rfl⟩
  · intro u pid msg ts now m hm
    simp only [handleChatMessage, List.mem_singleton] at hm
    subst hm
    exact ⟨deliver_room_mem members A A hA _ pid rfl,
           deliver_room_mem members A B hB _ pid rfl⟩

/-- The concrete full-update relay message of the C6 witness. -/
def exMsgFull : Msg :=
  ⟨Target.roomExceptSender "p", "editor:full-update", Payload.enrichedFull "u" "U" "d" 0⟩

/-- C6 witness: in the two-member room a and b, the wrapped full update
emitted by a reaches b and is not re-delivered to a. -/
theorem c6_witness :
    "b" ∈ deliver ["a", "b"] "a" exMsgFull ∧ ¬ "a" ∈ deliver ["a", "b"] "a" exMsgFull :=
  (c6_broadcast_scope ["a", "b"] "a" "b" (by decide) (by decide) (by decide)).1
    ⟨"u", "e", "U"⟩ "p" "d" 0 exMsgFull (by decide)

theorem markDeleted_id (rid : String) (q : Page) : (markDeleted rid q).id = q.id := by
  unfold markDeleted
  split <;> rfl

theorem markDefault_id (rid : String) (q : Page) : (markDefault rid q).id = q.id := by
  unfold markDefault
  split <;> rfl

theorem markDeleted_of_ne (rid : String) (q : Page) (h : ¬ q.id = rid) :
    markDeleted rid q = q := by
  unfold markDeleted
  rw [if_neg (by simp [h])]

theorem markDefault_of_ne (rid : String) (q : Page) (h : ¬ q.id = rid) :
    markDefault rid q = q := by
  unfold markDefault
  rw [if_neg (by simp [h])]

theorem markDeleted_of_eq (rid : String) (q : Page) (h : q.id = rid) :
    markDeleted rid q = {q with isDeleted := true} := by
  unfold markDeleted
  rw [if_pos (by simp [h])]

theorem markDefault_of_eq (rid : String) (q : Page) (h : q.id = rid) :
    markDefault rid q = {q with isDefault := true} := by
  unfold markDefault
  rw [if_pos (by simp [h])]

/-- A duplicate-free list whose members all equal one value has length ≤ 1. -/
theorem length_le_one_of_all_eq {α : Type} (l : List α) (a : α)
    (h : ∀ b ∈ l, b = a) (hnd : l.Nodup) : l.length ≤ 1 := by
  cases l with
  | nil => simp
  | cons x t =>
    cases t with
    | nil => simp
    | cons y s =>
      exfalso
      have hx : x = a := h x (by simp)
      have hy : y = a := h y (by simp)
      have hne : x ∉ y :: s := (List.nodup_cons.mp hnd).1
      rw [hx, ← hy] at hne
      exact hne (by simp)

/-- A duplicate-free list of length at least two has a member different from
any given member. -/
theorem exists_ne_of_two_le {α : Type} (l : List α) (a : α)
    (hnd : l.Nodup) (h2 : 2 ≤ l.length) (ha : a ∈ l) : ∃ b ∈ l, b ≠ a := by
  by_contra hcon
  push_neg at hcon
  have := length_le_one_of_all_eq l a hcon hnd
  omega

/-- countP is one when exactly one member of a duplicate-free list satisfies
the predicate. -/
theorem countP_eq_one_of_unique {α : Type} (l : List α) (p : α → Bool) (a : α)
    (ha : a ∈ l) (hpa : p a = true)
    (huniq : ∀ x ∈ l, p x = true → x = a) (hnd : l.Nodup) : l.countP p = 1 := by
  induction l with
  | nil => simp at ha
  | cons x t ih =>
    have hnd2 := List.nodup_cons.mp hnd
    by_cases hpx : p x = true
    · have hxa : x = a := huniq x (by simp) hpx
      rw [List.countP_cons_of_pos _ _ hpx]
      have ht0 : t.countP p = 0 := by
        rw [List.countP_eq_zero]
        intro y hy hpy
        have hya : y = a := huniq y (by simp [hy]) hpy
        have : x ∈ t := by rw [hxa, ← hya]; exact hy
        exact hnd2.1 this
      omega
    · have hat : a ∈ t := by
        rcases List.mem_cons.mp ha with h | h
        · exfalso
          rw [h] at hpa
          exact hpx hpa
        · exact h
      rw [List.countP_cons_of_neg _ _ hpx]
      exact ih hat (fun y hy hpy => huniq y (by simp [hy]) hpy) hnd2.2

/-- C7: soft-deleting via page:remove a page that is the unique default of its
project, in a store with at least two live pages, unique row ids, the unique
(projectId, clientId) index and no duplicate rows, marks exactly that row
deleted and leaves exactly one non-deleted page of the project with the
default flag, re-broadcasting the event verbatim; in particular the concrete
scenario p1 default, p2 live yields p1 deleted and p2 the sole default. -/
theorem c7_remove_default_reassigns_exactly_one
    (authPid sockId : String) (db : DB) (cp : ClientPages) (d : PageEventData)
    (pid cid : String) (page : Page)
    (h1 : strTruthy d.projectId = some pid)
    (h2 : strTruthy d.pageId = some cid)
    (h3 : db.pages.find? (fun p => p.projectId == pid && p.clientId == cid) = some page)
    (h4 : page.isDefault = true)
    (h5 : page.isDeleted = false)
    (h6 : 2 ≤ (db.pages.filter (fun p => p.projectId == pid && !p.isDeleted)).length)
    (h7 : ∀ q ∈ db.pages, q.projectId = pid → q.isDeleted = false → q.isDefault = true → q = page)
    (h8 : ∀ q ∈ db.pages, ∀ r ∈ db.pages, q.id = r.id → q = r)
    (h9 : ∀ q ∈ db.pages, ∀ r ∈ db.pages, q.projectId = r.projectId → q.clientId = r.clientId → q = r)
    (hnd : db.pages.Nodup) :
    ((handlePageRemove authPid sockId db cp d).1.pages.countP
        (fun q => q.id == page.id && q.isDeleted)) = 1 ∧
    ((handlePageRemove authPid sockId db cp d).1.pages.countP
        (fun q => q.projectId == pid && !q.isDeleted && q.isDefault)) = 1 ∧
    (handlePageRemove authPid sockId db cp d).2.2 =
      [⟨Target.roomExceptSender ("project:" ++ pid), "page:remove", Payload.pageEvt d⟩] := by
  have hmem : page ∈ db.pages := List.mem_of_find?_eq_some h3
  have hpred := List.find?_some h3
  simp only [Bool.and_eq_true, beq_iff_eq] at hpred
  obtain ⟨hppid, hpcid⟩ := hpred
  have hlen : ¬ ((db.pages.filter (fun p => p.projectId == pid && !p.isDeleted)).length ≤ 1) := by
    omega
  -- a live page of the project other than the removed one exists
  have hpfilter : page ∈ db.pages.filter (fun p => p.projectId == pid && !p.isDeleted) := by
    refine List.mem_filter.mpr ⟨hmem, ?_⟩
    simp [hppid, h5]
  obtain ⟨q0, hq0f, hq0ne⟩ := exists_ne_of_two_le _ page (hnd.filter _) h6 hpfilter
  have hq0mem : q0 ∈ db.pages := (List.mem_filter.mp hq0f).1
  have hq0p := (List.mem_filter.mp hq0f).2
  simp only [Bool.and_eq_true, beq_iff_eq, Bool.not_eq_true'] at hq0p
  obtain ⟨hq0pid, hq0live⟩ := hq0p
  have hq0id : ¬ q0.id = page.id := fun he => hq0ne (h8 q0 hq0mem page hmem he)
  have hq0cid : ¬ q0.clientId = cid := by
    intro he
    exact hq0ne (h9 q0 hq0mem page hmem (by rw [hq0pid, hppid]) (by rw [he, hpcid]))
  -- the reassignment lookup succeeds
  have hex : ∃ x ∈ db.pages.map (markDeleted page.id),
      (fun q => q.projectId == pid && !q.isDeleted && q.clientId != cid) x = true := by
    refine ⟨q0, List.mem_map.mpr ⟨q0, hq0mem, markDeleted_of_ne page.id q0 hq0id⟩, ?_⟩
    simp [hq0pid, hq0live, hq0cid]
  obtain ⟨anyPage, hfind⟩ := Option.isSome_iff_exists.mp (List.find?_isSome.mpr hex)
  have hAnyP := List.find?_some hfind
  simp only [Bool.and_eq_true, beq_iff_eq, Bool.not_eq_true', bne_iff_ne, ne_eq] at hAnyP
  obtain ⟨⟨hApid, hAlive⟩, hAcid⟩ := hAnyP
  obtain ⟨q1, hq1mem, hq1eq⟩ := List.mem_map.mp (List.mem_of_find?_eq_some hfind)
  have hq1id : ¬ q1.id = page.id := by
    intro he
    rw [markDeleted_of_eq page.id q1 he] at hq1eq
    rw [← hq1eq] at hAlive
    simp at hAlive
  have hq1any : q1 = anyPage := by
    rw [← hq1eq, markDeleted_of_ne page.id q1 hq1id]
  have hAmem : anyPage ∈ db.pages := hq1any ▸ hq1mem
  have hAid : ¬ anyPage.id = page.id := hq1any ▸ hq1id
  -- reduce the handler
  simp only [handlePageRemove, h1, h2, h3, h4, hlen, true_and, if_false, if_true, hfind,
    List.map_map, List.countP_map]
  refine ⟨?_, ?_, trivial⟩
  · -- exactly one row, the removed one, matches id and deleted flag
    apply countP_eq_one_of_unique db.pages _ page hmem ?_ ?_ hnd
    · simp only [Function.comp_apply]
      rw [markDeleted_of_eq page.id page rfl]
      rw [markDefault_of_ne anyPage.id _ (by simpa using fun he => hAid he.symm)]
      simp
    · intro x hx hpx
      simp only [Function.comp_apply] at hpx
      have hid : (markDefault anyPage.id (markDeleted page.id x)).id = x.id := by
        rw [markDefault_id, markDeleted_id]
      simp only [Bool.and_eq_true, beq_iff_eq] at hpx
      rw [hid] at hpx
      exact h8 x hx page hmem hpx.1
  · -- exactly one live page of the project carries the default flag
    apply countP_eq_one_of_unique db.pages _ anyPage hAmem ?_ ?_ hnd
    · simp only [Function.comp_apply]
      rw [markDeleted_of_ne page.id anyPage hAid]
      rw [markDefault_of_eq anyPage.id anyPage rfl]
      simp [hApid, hAlive]
    · intro x hx hpx
      simp only [Function.comp_apply] at hpx
      by_cases hxpage : x.id = page.id
      · exfalso
        rw [markDeleted_of_eq page.id x hxpage] at hpx
        rw [markDefault_of_ne anyPage.id _ (by simpa using fun he => hAid (hxpage ▸ he).symm)] at hpx
        simp at hpx
      · by_cases hxany : x.id = anyPage.id
        · exact h8 x hx anyPage hAmem hxany
        · exfalso
          rw [markDeleted_of_ne page.id x hxpage, markDefault_of_ne anyPage.id x hxany] at hpx
          simp only [Bool.and_eq_true, beq_iff_eq, Bool.not_eq_true'] at hpx
          obtain ⟨⟨hxa, hxb⟩, hxc⟩ := hpx
          exact hxpage (congrArg Page.id (h7 x hx hxa hxb hxc))

/-- Pages of the C7 witness: p1 default, p2 live non-default. -/
def exC7p1 : Page := ⟨"r1", "p1", "X", "Home", none, none, none, true, false, 0⟩

def exC7p2 : Page := ⟨"r2", "p2", "X", "About", none, none, none, false, false, 1⟩

def exC7db : DB := ⟨[projX], [], [exC7p1, exC7p2]⟩

def exC7event : PageEventData := ⟨some "p1", none, none, none, some "X", none⟩

/-- C7 witness: removing default page p1 in the two-page project leaves p1
soft-deleted and p2 the sole live default, and re-broadcasts the event. -/
theorem c7_witness :
    ((handlePageRemove "A" "s1" exC7db [] exC7event).1.pages.countP
        (fun q => q.id == exC7p1.id && q.isDeleted)) = 1 ∧
    ((handlePageRemove "A" "s1" exC7db [] exC7event).1.pages.countP
        (fun q => q.projectId == "X" && !q.isDeleted && q.isDefault)) = 1 ∧
    (handlePageRemove "A" "s1" exC7db [] exC7event).2.2 =
      [⟨Target.roomExceptSender "project:X", "page:remove", Payload.pageEvt exC7event⟩] :=
  c7_remove_default_reassigns_exactly_one "A" "s1" exC7db [] exC7event "X" "p1" exC7p1
    (by decide) (by decide) (by decide) (by decide) (by decide) (by decide)
    (by decide) (by decide) (by decide) (by decide)

end Collab
